import Mathlib

/-!
Verification of the round lifecycle engine of the rise-node repository.

The development shallowly embeds `src/modules/rounds.ts` (class
`RoundsModule`: `tick`, `backwardTick`, `innerTick`, `getOutsiders`,
`sumRound`) and `src/modules/accounts.ts` (class `AccountsModule`).
Injected collaborators (`roundsLogic`, `RoundLogic`, `dbHelper`, the
event bus, the account logic) are not part of this repository snapshot,
so they are either kept abstract (functions supplied as parameters,
fallible ones returning `Except`) or modelled from the specification
where a claim depends on their behaviour; every such definition carries
a doc comment starting with `Modelled from the spec:`.

Conventions:
* JavaScript `number` values holding monetary amounts are embedded as
  `Int` (`Nat` where the source value is a non-negative count).
* `Buffer` public keys are embedded as `List (Fin 256)` (byte lists);
  `buf.toString('hex')` becomes `bufToHex : List (Fin 256) → List Char`.
* A JS value that may be `null` is embedded as an `Option`; a statement
  that would throw a `TypeError` on a `null` dereference is embedded as
  an explicit `JsError.typeError` outcome.
* Rejected promises / thrown errors are embedded with `Except`.
-/

/-- Delegate account fields mutated by the round engine (a slice of the
`mem_accounts` row). All fields are integer amounts or counters. -/
@[ext]
structure MemAccount where
  balance : Int := 0
  u_balance : Int := 0
  vote : Int := 0
  votesWeight : Int := 0
  producedblocks : Int := 0
  missedblocks : Int := 0
deriving DecidableEq

instance : Zero MemAccount := ⟨{}⟩

instance : Add MemAccount :=
  ⟨fun a b =>
    { balance := a.balance + b.balance
      u_balance := a.u_balance + b.u_balance
      vote := a.vote + b.vote
      votesWeight := a.votesWeight + b.votesWeight
      producedblocks := a.producedblocks + b.producedblocks
      missedblocks := a.missedblocks + b.missedblocks }⟩

instance : Neg MemAccount :=
  ⟨fun a =>
    { balance := -a.balance
      u_balance := -a.u_balance
      vote := -a.vote
      votesWeight := -a.votesWeight
      producedblocks := -a.producedblocks
      missedblocks := -a.missedblocks }⟩

@[simp] theorem MemAccount.add_balance (a b : MemAccount) : (a + b).balance = a.balance + b.balance := rfl

@[simp] theorem MemAccount.add_u_balance (a b : MemAccount) : (a + b).u_balance = a.u_balance + b.u_balance := rfl

@[simp] theorem MemAccount.add_vote (a b : MemAccount) : (a + b).vote = a.vote + b.vote := rfl

@[simp] theorem MemAccount.add_votesWeight (a b : MemAccount) : (a + b).votesWeight = a.votesWeight + b.votesWeight := rfl

@[simp] theorem MemAccount.add_producedblocks (a b : MemAccount) : (a + b).producedblocks = a.producedblocks + b.producedblocks := rfl

@[simp] theorem MemAccount.add_missedblocks (a b : MemAccount) : (a + b).missedblocks = a.missedblocks + b.missedblocks := rfl

@[simp] theorem MemAccount.neg_balance (a : MemAccount) : (-a).balance = -a.balance := rfl

@[simp] theorem MemAccount.neg_u_balance (a : MemAccount) : (-a).u_balance = -a.u_balance := rfl

@[simp] theorem MemAccount.neg_vote (a : MemAccount) : (-a).vote = -a.vote := rfl

@[simp] theorem MemAccount.neg_votesWeight (a : MemAccount) : (-a).votesWeight = -a.votesWeight := rfl

@[simp] theorem MemAccount.neg_producedblocks (a : MemAccount) : (-a).producedblocks = -a.producedblocks := rfl

@[simp] theorem MemAccount.neg_missedblocks (a : MemAccount) : (-a).missedblocks = -a.missedblocks := rfl

@[simp] theorem MemAccount.zero_balance : (0 : MemAccount).balance = 0 := rfl

@[simp] theorem MemAccount.zero_u_balance : (0 : MemAccount).u_balance = 0 := rfl

@[simp] theorem MemAccount.zero_vote : (0 : MemAccount).vote = 0 := rfl

@[simp] theorem MemAccount.zero_votesWeight : (0 : MemAccount).votesWeight = 0 := rfl

@[simp] theorem MemAccount.zero_producedblocks : (0 : MemAccount).producedblocks = 0 := rfl

@[simp] theorem MemAccount.zero_missedblocks : (0 : MemAccount).missedblocks = 0 := rfl

instance : AddCommGroup MemAccount where
  add_assoc a b c := by ext <;> simp [Int.add_assoc]
  zero_add a := by ext <;> simp
  add_zero a := by ext <;> simp
  nsmul := nsmulRec
  zsmul := zsmulRec
  neg_add_cancel a := by ext <;> simp
  add_comm a b := by ext <;> simp [Int.add_comm]

/-- Public keys are byte buffers (`Buffer` in the source). -/
abbrev PubKey := List (Fin 256)

/-- The typed database operations the engine emits (`DBOp` in
`src/types/genericTypes.ts`, restricted to the shapes the round engine
produces: account-row updates, the snapshot block truncation, and the
block-id stamp). -/
inductive DBRoundOp where
  | updateAccount (addr : String) (diff : MemAccount)
  | truncateBlocks
  | markBlockId (blockId : String)
deriving DecidableEq

/-- Effect of one op on the in-memory view of all accounts (an
`updateAccount` op adds its diff to the addressed row; the other ops do
not touch account rows). -/
def applyDbOp (op : DBRoundOp) (s : String → MemAccount) : String → MemAccount :=
  match op with
  | .updateAccount a d => fun x => if x = a then s x + d else s x
  | .truncateBlocks => s
  | .markBlockId _ => s

/-- Execute a list of ops in order (the behaviour of
`dbHelper.performOps` on account rows). -/
def applyDbOps (l : List DBRoundOp) (s : String → MemAccount) : String → MemAccount :=
  l.foldl (fun st op => applyDbOp op st) s

/-- The diff an op contributes to address `x`. -/
def opDiffAt (x : String) : DBRoundOp → MemAccount
  | .updateAccount a d => if x = a then d else 0
  | .truncateBlocks => 0
  | .markBlockId _ => 0

/-- Total diff a list of ops contributes to address `x`. -/
def netDiff (l : List DBRoundOp) (x : String) : MemAccount :=
  (l.map (opDiffAt x)).sum

theorem applyDbOp_eq (op : DBRoundOp) (s : String → MemAccount) (x : String) :
    applyDbOp op s x = s x + opDiffAt x op := by
  cases op with
  | updateAccount a d =>
    simp only [applyDbOp, opDiffAt]
    by_cases h : x = a <;> simp [h]
  | truncateBlocks => simp [applyDbOp, opDiffAt]
  | markBlockId i => simp [applyDbOp, opDiffAt]

theorem applyDbOps_eq (l : List DBRoundOp) :
    ∀ (s : String → MemAccount) (x : String),
      applyDbOps l s x = s x + netDiff l x := by
  induction l with
  | nil => intro s x; simp [applyDbOps, netDiff]
  | cons op t ih =>
    intro s x
    have h1 : applyDbOps (op :: t) s x = applyDbOps t (applyDbOp op s) x := rfl
    rw [h1, ih, applyDbOp_eq]
    simp [netDiff, add_assoc]

theorem netDiff_append (l₁ l₂ : List DBRoundOp) (x : String) :
    netDiff (l₁ ++ l₂) x = netDiff l₁ x + netDiff l₂ x := by
  simp [netDiff, List.sum_append]

/-- Negate an account-update op (identity on the other ops). -/
def negDbOp : DBRoundOp → DBRoundOp
  | .updateAccount a d => .updateAccount a (-d)
  | .truncateBlocks => .truncateBlocks
  | .markBlockId i => .markBlockId i

theorem opDiffAt_negDbOp (x : String) (op : DBRoundOp) :
    opDiffAt x (negDbOp op) = -(opDiffAt x op) := by
  cases op with
  | updateAccount a d =>
    simp only [negDbOp, opDiffAt]
    by_cases h : x = a <;> simp [h]
  | truncateBlocks => simp [negDbOp, opDiffAt]
  | markBlockId i => simp [negDbOp, opDiffAt]

theorem netDiff_reverse (l : List DBRoundOp) (x : String) :
    netDiff l.reverse x = netDiff l x := by
  induction l with
  | nil => rfl
  | cons op t ih =>
    rw [List.reverse_cons, netDiff_append]
    have h2 : netDiff (op :: t) x = opDiffAt x op + netDiff t x := by
      simp [netDiff]
    rw [ih, h2]
    have h3 : netDiff [op] x = opDiffAt x op := by simp [netDiff]
    rw [h3, add_comm]

theorem netDiff_map_neg (l : List DBRoundOp) (x : String) :
    netDiff (l.map negDbOp) x = -(netDiff l x) := by
  induction l with
  | nil => simp [netDiff]
  | cons op t ih =>
    simp only [List.map_cons]
    have h2 : ∀ (o : DBRoundOp) (r : List DBRoundOp),
        netDiff (o :: r) x = opDiffAt x o + netDiff r x := by
      intro o r; simp [netDiff]
    rw [h2, h2, ih, opDiffAt_negDbOp, neg_add]

theorem netDiff_neg_reverse (l : List DBRoundOp) (x : String) :
    netDiff ((l.map negDbOp).reverse) x = -(netDiff l x) := by
  rw [netDiff_reverse, netDiff_map_neg]

/-- Hex digit characters, as produced by `Buffer.toString('hex')`
(lowercase): code 48 is the digit zero and code 97 is the letter a. -/
def hexDigit (n : Fin 16) : Char :=
  if n.val < 10 then Char.ofNat (48 + n.val) else Char.ofNat (87 + n.val)

/-- Two hex characters of one byte, high nibble first. -/
def byteHex (b : Fin 256) : List Char :=
  [hexDigit ⟨b.val / 16, by omega⟩, hexDigit ⟨b.val % 16, by omega⟩]

/-- `buf.toString('hex')` on a byte buffer. -/
def bufToHex (l : PubKey) : List Char :=
  (l.map byteHex).flatten

theorem hexDigit_injective : ∀ a b : Fin 16, hexDigit a = hexDigit b → a = b := by
  decide

theorem byteHex_injective (a b : Fin 256) (h : byteHex a = byteHex b) : a = b := by
  simp only [byteHex, List.cons.injEq, and_true] at h
  obtain ⟨h1, h2⟩ := h
  have e1 := hexDigit_injective _ _ h1
  have e2 := hexDigit_injective _ _ h2
  have v1 : a.val / 16 = b.val / 16 := congrArg Fin.val e1
  have v2 : a.val % 16 = b.val % 16 := congrArg Fin.val e2
  have : a.val = b.val := by omega
  exact Fin.ext this

theorem bufToHex_injective : ∀ l₁ l₂ : PubKey, bufToHex l₁ = bufToHex l₂ → l₁ = l₂ := by
  intro l₁
  induction l₁ with
  | nil =>
    intro l₂ h
    cases l₂ with
    | nil => rfl
    | cons b t => simp [bufToHex, byteHex] at h
  | cons a t ih =>
    intro l₂ h
    cases l₂ with
    | nil => simp [bufToHex, byteHex] at h
    | cons b t₂ =>
      simp only [bufToHex, List.map_cons, List.flatten, byteHex, List.cons_append,
        List.nil_append, List.cons.injEq] at h
      obtain ⟨h1, h2, h3⟩ := h
      have e1 := hexDigit_injective _ _ h1
      have e2 := hexDigit_injective _ _ h2
      have v1 : a.val / 16 = b.val / 16 := congrArg Fin.val e1
      have v2 : a.val % 16 = b.val % 16 := congrArg Fin.val e2
      have hab : a = b := Fin.ext (by omega)
      have ht : t = t₂ := ih t₂ (by simpa [bufToHex] using h3)
      rw [hab, ht]

/-- The block fields the round engine reads (`SignedBlockType`). -/
structure SignedBlock where
  height : Nat
  generatorPublicKey : PubKey
  id : String
  totalFee : Int
  reward : Int
deriving DecidableEq

/-- Result of `RoundsModule.sumRound`: the round's total fees, the
per-height rewards and the generators of the round's blocks in
height-ascending order. -/
structure RoundSums where
  roundFees : Int
  roundRewards : List Int
  roundDelegates : List PubKey
deriving DecidableEq

/-- The scope handed to `RoundLogic` (source lines 143-162).  The
spread `...roundSums` is embedded as an `Option RoundSums` field, which
is `none` exactly when the source leaves the three sum fields
undefined (non-finishing ticks). -/
structure RoundLogicScope where
  backwards : Bool
  block : SignedBlock
  dposV2 : Bool
  finishRound : Bool
  round : Nat
  roundOutsiders : Option (List String)
  roundSums : Option RoundSums
deriving DecidableEq

/-- Modelled from the spec: `round_of(h) = ceil(h / N)` where `N` is the
number of active delegates (`roundsLogic.calcRound`, not part of this
snapshot). -/
def calcRound (activeDelegates h : Nat) : Nat :=
  (h + activeDelegates - 1) / activeDelegates

/-- Modelled from the spec: `last_in_round(r) = r*N`
(`roundsLogic.lastInRound`, not part of this snapshot). -/
def lastInRound (activeDelegates r : Nat) : Nat :=
  r * activeDelegates

/-- The round-finishing test computed by `innerTick` (source lines
124-129): `finishRound = (nextRound !== round) || (block.height === 1)`. -/
def innerTickFinishRound (activeDelegates h : Nat) : Bool :=
  (calcRound activeDelegates (h + 1) != calcRound activeDelegates h) || (h == 1)

/-- The spec's round-end predicate:
`is_round_end(h) = (round_of(h) != round_of(h+1)) || h == 1`. -/
def isRoundEnd (activeDelegates h : Nat) : Bool :=
  (calcRound activeDelegates h != calcRound activeDelegates (h + 1)) || (h == 1)

/-- Modelled from the spec: `RoundLogic.mergeBlockGenerator` (the
`RoundLogic` class is not part of this snapshot).  For the block's
generator it merges `+1 producedblocks`, `+reward` and `+fee` into
`balance` and `u_balance`; in a backward tick the diff is negated so
that the merge is exactly reverted. -/
def mergeBlockGenerator (genAddr : PubKey → String) (scope : RoundLogicScope) :
    List DBRoundOp :=
  let amount : Int := scope.block.reward + scope.block.totalFee
  let d : MemAccount := { balance := amount, u_balance := amount, producedblocks := 1 }
  [DBRoundOp.updateAccount (genAddr scope.block.generatorPublicKey)
    (if scope.backwards then -d else d)]

/-- Modelled from the spec: `RoundLogic.apply` (not part of this
snapshot).  Only when the round finishes: each forging delegate `i`
receives `floor(roundFees / N) + roundRewards[i]` on `balance` and
`u_balance`, the last forger additionally receives the fee remainder,
and each outsider gets `+1 missedblocks`. -/
def applyRoundOps (activeDelegates : Nat) (genAddr : PubKey → String)
    (scope : RoundLogicScope) : List DBRoundOp :=
  match scope.roundSums with
  | none => []
  | some rs =>
    if scope.finishRound then
      let n : Int := (activeDelegates : Int)
      let share : Int := rs.roundFees.fdiv n
      let remainder : Int := rs.roundFees - share * n
      let count := rs.roundDelegates.length
      (List.range count).map (fun i =>
        let pk := rs.roundDelegates.getD i []
        let amt := share + rs.roundRewards.getD i 0 +
          (if i = count - 1 then remainder else 0)
        DBRoundOp.updateAccount (genAddr pk) { balance := amt, u_balance := amt })
      ++ (scope.roundOutsiders.getD []).map
        (fun addr => DBRoundOp.updateAccount addr { missedblocks := 1 })
    else []

/-- Modelled from the spec: `RoundLogic.undo` (not part of this
snapshot) emits the exact negation of `apply` in reverse order. -/
def undoRoundOps (activeDelegates : Nat) (genAddr : PubKey → String)
    (scope : RoundLogicScope) : List DBRoundOp :=
  ((applyRoundOps activeDelegates genAddr scope).map negDbOp).reverse

/-- The op list built by `RoundsModule.tick` (source lines 85-110):
`mergeBlockGenerator`, then `apply`, then — when the round finishes and
the snapshot round is reached — `truncateBlocks`, and finally
`markBlockId`. -/
def tickOps (activeDelegates : Nat) (genAddr : PubKey → String)
    (snapshotRounds : Nat) (scope : RoundLogicScope) : List DBRoundOp :=
  let snapshotRound : Bool := (decide (0 < snapshotRounds)) && (snapshotRounds == scope.round)
  mergeBlockGenerator genAddr scope
    ++ applyRoundOps activeDelegates genAddr scope
    ++ (if scope.finishRound && snapshotRound then [DBRoundOp.truncateBlocks] else [])
    ++ [DBRoundOp.markBlockId scope.block.id]

/-- The op list built by `RoundsModule.backwardTick` (source lines
72-83): `mergeBlockGenerator`, then `undo`, then `markBlockId`. -/
def backwardTickOps (activeDelegates : Nat) (genAddr : PubKey → String)
    (scope : RoundLogicScope) : List DBRoundOp :=
  mergeBlockGenerator genAddr scope
    ++ undoRoundOps activeDelegates genAddr scope
    ++ [DBRoundOp.markBlockId scope.block.id]

/-- Errors observable from the engine: a rejected promise / thrown
error of the surrounding code (`err`), or a JavaScript `TypeError`
raised by dereferencing `null` (`typeError`). -/
inductive JsError (E : Type) where
  | typeError
  | err (e : E)
deriving DecidableEq

/-- Events published on the event bus by the round engine. -/
inductive BusEvent where
  | finishRound (round : Nat)
  | roundBackwardTick (height : Nat)
deriving DecidableEq

/-- Observable steps of one tick, in execution order: handing an op
batch to the transactional executor, or emitting a bus event. -/
inductive TickStep where
  | performOps (ops : List DBRoundOp)
  | busEmit (ev : BusEvent)
deriving DecidableEq

/-- The collaborators `innerTick` interacts with, embedded as fallible
functions.  `txGenerator` returns the observable steps it executed
together with its outcome. -/
structure InnerTickEnv (E : Type) where
  sumRound : Nat → Except E RoundSums
  generateDelegateList : Nat → Except E (List PubKey)
  genAddr : PubKey → String
  txGenerator : RoundLogicScope → List TickStep × Except E Unit
  afterTx : Except E Unit

/-- `RoundsModule.getOutsiders` (source lines 177-186): hex-encode the
public keys that actually forged, fetch the expected slate for the last
height of the round, keep the slate keys whose hex string does not
occur among the forgers, and map each to its address. -/
def getOutsiders {E : Type} (activeDelegates : Nat) (env : InnerTickEnv E)
    (round : Nat) (roundDelegates : List PubKey) : Except E (List String) :=
  let strPKDelegates := roundDelegates.map bufToHex
  let height := lastInRound activeDelegates round
  match env.generateDelegateList height with
  | .error e => .error e
  | .ok originalDelegates =>
    .ok ((originalDelegates.filter
      (fun pk => !(strPKDelegates.contains (bufToHex pk)))).map env.genAddr)

/-- The round sums after the genesis correction of `innerTick` (source
lines 133-139): when `block.height === 1` the source dereferences
`roundSums.roundDelegates` (a `TypeError` if `roundSums` is `null`) and
overrides the sums when the delegate list does not have exactly one
entry. -/
def genesisPatchedSums {E : Type} (block : SignedBlock) (rSums : Option RoundSums) :
    Except (JsError E) (Option RoundSums) :=
  if block.height = 1 then
    match rSums with
    | none => .error .typeError
    | some rs =>
      .ok (some (if rs.roundDelegates.length ≠ 1 then
        { roundFees := 0, roundRewards := [0],
          roundDelegates := [block.generatorPublicKey] }
      else rs))
  else .ok rSums

/-- The part of `RoundsModule.innerTick` that builds the
`RoundLogicScope` (source lines 124-162): round computation, the
round-finishing test, `sumRound` when the round finishes, the genesis
correction, and the outsider computation. -/
def innerTickScope {E : Type} (activeDelegates dposv2FirstBlock : Nat)
    (env : InnerTickEnv E) (block : SignedBlock) (backwards : Bool) :
    Except (JsError E) RoundLogicScope :=
  let round := calcRound activeDelegates block.height
  let finishRound := innerTickFinishRound activeDelegates block.height
  let roundSums0 : Except (JsError E) (Option RoundSums) :=
    if finishRound then
      match env.sumRound round with
      | .ok rs => .ok (some rs)
      | .error e => .error (.err e)
    else .ok none
  match roundSums0 with
  | .error e => .error e
  | .ok rSums =>
    match genesisPatchedSums block rSums with
    | .error e => .error e
    | .ok rSums2 =>
      let outs : Except (JsError E) (Option (List String)) :=
        if finishRound then
          match rSums2 with
          | none => .error .typeError
          | some rs =>
            match getOutsiders activeDelegates env round rs.roundDelegates with
            | .ok l => .ok (some l)
            | .error e => .error (.err e)
        else .ok none
      match outs with
      | .error e => .error e
      | .ok roundOutsiders =>
        .ok { backwards := backwards
              block := block
              dposV2 := decide (dposv2FirstBlock ≤ block.height)
              finishRound := finishRound
              round := round
              roundOutsiders := roundOutsiders
              roundSums := rSums2 }

/-- The outcome of the `try` body of `innerTick` (source lines
130-164): build the scope, run the supplied transaction generator, then
the after-transaction promise. -/
def innerTickBody {E : Type} (activeDelegates dposv2FirstBlock : Nat)
    (env : InnerTickEnv E) (block : SignedBlock) (backwards : Bool) :
    Except (JsError E) Unit :=
  match innerTickScope activeDelegates dposv2FirstBlock env block backwards with
  | .error e => .error e
  | .ok scope =>
    match (env.txGenerator scope).2 with
    | .error e => .error (.err e)
    | .ok _ =>
      match env.afterTx with
      | .error e => .error (.err e)
      | .ok _ => .ok ()

/-- `RoundsModule.innerTick` (source lines 119-171).  Returns the
sequence of writes to the `rounds.isTicking` flag, the observable steps
of the transaction generator, and the outcome: the flag is written
`true` on entry, the body runs, and both the success path and the
`catch` handler write `false`, the latter rethrowing the error. -/
def innerTick {E : Type} (activeDelegates dposv2FirstBlock : Nat)
    (env : InnerTickEnv E) (block : SignedBlock) (backwards : Bool) :
    List Bool × List TickStep × Except (JsError E) Unit :=
  match innerTickScope activeDelegates dposv2FirstBlock env block backwards with
  | .error e => ([true, false], [], .error e)
  | .ok scope =>
    match env.txGenerator scope with
    | (steps, .error e) => ([true, false], steps, .error (.err e))
    | (steps, .ok _) =>
      match env.afterTx with
      | .error e => ([true, false], steps, .error (.err e))
      | .ok _ => ([true, false], steps, .ok ())

/-- The injected collaborators of `tick` / `backwardTick`. -/
structure TickEnv (E : Type) where
  sumRound : Nat → Except E RoundSums
  generateDelegateList : Nat → Except E (List PubKey)
  genAddr : PubKey → String
  performOps : List DBRoundOp → Except E Unit
  busMessage : BusEvent → Except E Unit

/-- The transaction generator closure passed by `RoundsModule.tick`
(source lines 90-108): build the op list, hand it to
`dbHelper.performOps`, and — only when the round finishes — await
`bus.message('finishRound', round)`. -/
def tickTxGenerator {E : Type} (activeDelegates : Nat) (envT : TickEnv E)
    (snapshotRounds : Nat) (scope : RoundLogicScope) :
    List TickStep × Except E Unit :=
  match envT.performOps (tickOps activeDelegates envT.genAddr snapshotRounds scope) with
  | .error e =>
    ([.performOps (tickOps activeDelegates envT.genAddr snapshotRounds scope)], .error e)
  | .ok _ =>
    if scope.finishRound then
      ([.performOps (tickOps activeDelegates envT.genAddr snapshotRounds scope),
        .busEmit (.finishRound scope.round)],
        envT.busMessage (.finishRound scope.round))
    else ([.performOps (tickOps activeDelegates envT.genAddr snapshotRounds scope)], .ok ())

/-- The transaction generator closure passed by
`RoundsModule.backwardTick` (source lines 74-82). -/
def backwardTickTxGenerator {E : Type} (activeDelegates : Nat)
    (envT : TickEnv E) (scope : RoundLogicScope) :
    List TickStep × Except E Unit :=
  ([.performOps (backwardTickOps activeDelegates envT.genAddr scope)],
    envT.performOps (backwardTickOps activeDelegates envT.genAddr scope))

/-- The `InnerTickEnv` that `tick` assembles (its `afterTxPromise`
argument is left at the default resolved promise). -/
def tickInnerEnv {E : Type} (activeDelegates : Nat) (envT : TickEnv E)
    (snapshotRounds : Nat) : InnerTickEnv E :=
  { sumRound := envT.sumRound
    generateDelegateList := envT.generateDelegateList
    genAddr := envT.genAddr
    txGenerator := tickTxGenerator activeDelegates envT snapshotRounds
    afterTx := .ok () }

/-- The `InnerTickEnv` that `backwardTick` assembles. -/
def backwardTickInnerEnv {E : Type} (activeDelegates : Nat)
    (envT : TickEnv E) : InnerTickEnv E :=
  { sumRound := envT.sumRound
    generateDelegateList := envT.generateDelegateList
    genAddr := envT.genAddr
    txGenerator := backwardTickTxGenerator activeDelegates envT
    afterTx := .ok () }

/-- `RoundsModule.tick` (source lines 85-110). -/
def roundsTick {E : Type} (activeDelegates dposv2FirstBlock snapshotRounds : Nat)
    (envT : TickEnv E) (block : SignedBlock) :
    List Bool × List TickStep × Except (JsError E) Unit :=
  innerTick activeDelegates dposv2FirstBlock
    (tickInnerEnv activeDelegates envT snapshotRounds) block false

/-- `RoundsModule.backwardTick` (source lines 72-83).  The
`roundBackwardTick` bus message is fired before `innerTick` without
awaiting it, so its outcome is not observed. -/
def roundsBackwardTick {E : Type} (activeDelegates dposv2FirstBlock : Nat)
    (envT : TickEnv E) (block : SignedBlock) :
    List Bool × List TickStep × Except (JsError E) Unit :=
  let r := innerTick activeDelegates dposv2FirstBlock
    (backwardTickInnerEnv activeDelegates envT) block true
  (r.1, .busEmit (.roundBackwardTick block.height) :: r.2.1, r.2.2)

/-- Round a natural number to a multiple of `2^e`, ties to even — the
IEEE-754 round-to-nearest-even rule restricted to integers. -/
def roundTiesEven (n e : Nat) : Nat :=
  let p := 2 ^ e
  let q := n / p
  let r := n % p
  (if 2 * r < p then q
   else if p < 2 * r then q + 1
   else if q % 2 = 0 then q else q + 1) * p

/-- JavaScript `parseFloat` applied to the decimal string of a
non-negative integer `n`: the nearest IEEE-754 double (53-bit
significand), ties to even.  Values below `2^53` are exact; larger
values are rounded to a multiple of `2^(log2 n - 52)`.  `Math.floor` is
the identity on these integer-valued doubles, so the source's
`Math.floor(parseFloat(s))` collapses to this function. -/
def jsParseFloatNat (n : Nat) : Nat :=
  if n < 2 ^ 53 then n else roundTiesEven n (n.log2 - 52)

/-- Raw result of `RoundsModel.sumRound` (the SQL aggregate): fees and
rewards arrive as decimal strings of the persisted integer totals,
embedded here by their integer values. -/
structure SumRoundRes where
  fees : Nat
  rewards : List Nat
  delegates : List PubKey
deriving DecidableEq

/-- The value post-processing of `RoundsModule.sumRound` (source lines
188-198): `Math.floor(parseFloat(res.fees))` and
`res.rewards.map((r) => Math.floor(parseFloat(r)))`. -/
def sumRoundValues (res : SumRoundRes) : RoundSums :=
  { roundFees := (jsParseFloatNat res.fees : Int)
    roundRewards := res.rewards.map (fun r => (jsParseFloatNat r : Int))
    roundDelegates := res.delegates }

/-- A non-negative integer is the value of an IEEE-754 double exactly
when it is a 53-bit significand times a power of two. -/
def RepresentableDouble (n : Nat) : Prop :=
  ∃ m e : Nat, m < 2 ^ 53 ∧ n = m * 2 ^ e

theorem roundTiesEven_representable (n e : Nat)
    (h : n / 2 ^ e < 2 ^ 53) : RepresentableDouble (roundTiesEven n e) := by
  unfold roundTiesEven
  set p := 2 ^ e with hp
  set q := n / p with hq
  set r := n % p with hr
  by_cases h1 : 2 * r < p
  · refine ⟨q, e, h, ?_⟩
    simp [h1]
  · by_cases h2 : p < 2 * r
    · by_cases h3 : q + 1 < 2 ^ 53
      · refine ⟨q + 1, e, h3, ?_⟩
        simp [h1, h2]
      · have hq1 : q + 1 = 2 ^ 53 := by omega
        refine ⟨2 ^ 52, e + 1, by norm_num, ?_⟩
        simp only [h1, h2, if_false, if_true]
        rw [hq1, hp]
        ring
    · by_cases h4 : q % 2 = 0
      · refine ⟨q, e, h, ?_⟩
        simp [h1, h2, h4]
      · by_cases h3 : q + 1 < 2 ^ 53
        · refine ⟨q + 1, e, h3, ?_⟩
          simp [h1, h2, h4]
        · have hq1 : q + 1 = 2 ^ 53 := by omega
          refine ⟨2 ^ 52, e + 1, by norm_num, ?_⟩
          simp only [h1, h2, h4, if_false]
          rw [hq1, hp]
          ring

theorem jsParseFloatNat_representable (n : Nat) :
    RepresentableDouble (jsParseFloatNat n) := by
  unfold jsParseFloatNat
  by_cases h : n < 2 ^ 53
  · simp only [h, if_true]
    exact ⟨n, 0, h, by simp⟩
  · simp only [h, if_false]
    apply roundTiesEven_representable
    have hn : 2 ^ 53 ≤ n := Nat.le_of_not_lt h
    have hn0 : n ≠ 0 := by
      intro h0
      rw [h0] at hn
      exact absurd hn (by norm_num)
    have hl : 53 ≤ n.log2 := (Nat.le_log2 hn0).2 hn
    have hub : n < 2 ^ (n.log2 + 1) := Nat.lt_log2_self
    have hpos : 0 < 2 ^ (n.log2 - 52) := Nat.pos_pow_of_pos _ (by norm_num)
    rw [Nat.div_lt_iff_lt_mul hpos]
    calc n < 2 ^ (n.log2 + 1) := hub
      _ = 2 ^ 53 * 2 ^ (n.log2 - 52) := by
        rw [← pow_add]
        congr 1
        omega

/-- JavaScript falsiness of an optional string field (`!data.address`):
absent (`undefined`/`null`) or the empty string. -/
def jsFalsyStr (o : Option String) : Bool :=
  match o with
  | none => true
  | some s => s == ""

/-- The identification part of the argument of the `AccountsModule`
facade functions: an optional `address` and an optional `publicKey`
(the remaining payload fields are irrelevant to the guard). -/
structure AccountIdentArg where
  address : Option String := none
  publicKey : Option String := none
deriving DecidableEq

/-- `AccountsModule.setAccountAndGet` (source lines 37-50), reduced to
its guard and address resolution: throw when both `address` and
`publicKey` are falsy, derive the address from the public key when only
the address is falsy, and proceed (`accountLogic.set` + `get`) on the
resolved address, which is returned here. -/
def setAccountAndGet (gen : String → String) (d : AccountIdentArg) :
    Except String String :=
  if jsFalsyStr d.address && jsFalsyStr d.publicKey then
    .error "Missing address and public key"
  else if jsFalsyStr d.address then .ok (gen (d.publicKey.getD ""))
  else .ok (d.address.getD "")

/-- `AccountsModule.mergeAccountAndGetSQL` (source lines 52-62): same
guard and address resolution, proceeding on `accountLogic.merge`. -/
def mergeAccountAndGetSQL (gen : String → String) (d : AccountIdentArg) :
    Except String String :=
  if jsFalsyStr d.address && jsFalsyStr d.publicKey then
    .error "Missing address and public key"
  else if jsFalsyStr d.address then .ok (gen (d.publicKey.getD ""))
  else .ok (d.address.getD "")

/-- `AccountsModule.mergeAccountAndGet` (source lines 70-81): same
guard and address resolution, proceeding on `accountLogic.merge` with
the empty callback. -/
def mergeAccountAndGet (gen : String → String) (d : AccountIdentArg) :
    Except String String :=
  if jsFalsyStr d.address && jsFalsyStr d.publicKey then
    .error "Missing address and public key"
  else if jsFalsyStr d.address then .ok (gen (d.publicKey.getD ""))
  else .ok (d.address.getD "")

/-- Effect of one forward `tick` on the account table, for a given
round context (the context of a backward tick of the same block has the
same data with only the `backwards` flag flipped). -/
def tickStateChange (activeDelegates : Nat) (genAddr : PubKey → String)
    (snapshotRounds : Nat) (c : RoundLogicScope) (s : String → MemAccount) :
    String → MemAccount :=
  applyDbOps (tickOps activeDelegates genAddr snapshotRounds { c with backwards := false }) s

/-- Effect of one `backwardTick` on the account table, for the same
round context. -/
def backwardTickStateChange (activeDelegates : Nat) (genAddr : PubKey → String)
    (c : RoundLogicScope) (s : String → MemAccount) : String → MemAccount :=
  applyDbOps (backwardTickOps activeDelegates genAddr { c with backwards := true }) s

theorem netDiff_merge_backwards (genAddr : PubKey → String) (c : RoundLogicScope)
    (x : String) :
    netDiff (mergeBlockGenerator genAddr { c with backwards := true }) x
      = -(netDiff (mergeBlockGenerator genAddr { c with backwards := false }) x) := by
  simp only [mergeBlockGenerator, netDiff, List.map_cons, List.map_nil, List.sum_cons,
    List.sum_nil, opDiffAt]
  by_cases h : x = genAddr c.block.generatorPublicKey <;> simp [h]

theorem applyRoundOps_backwards_irrel (activeDelegates : Nat)
    (genAddr : PubKey → String) (c : RoundLogicScope) (b : Bool) :
    applyRoundOps activeDelegates genAddr { c with backwards := b }
      = applyRoundOps activeDelegates genAddr c := rfl

theorem netDiff_aux_zero (b : Bool) (x : String) :
    netDiff (if b then [DBRoundOp.truncateBlocks] else []) x = 0 := by
  cases b <;> simp [netDiff, opDiffAt]

theorem netDiff_mark_zero (i : String) (x : String) :
    netDiff [DBRoundOp.markBlockId i] x = 0 := by
  simp [netDiff, opDiffAt]

theorem backward_cancels_tick (activeDelegates : Nat) (genAddr : PubKey → String)
    (snapshotRounds : Nat) (c : RoundLogicScope) (s : String → MemAccount) :
    backwardTickStateChange activeDelegates genAddr c
      (tickStateChange activeDelegates genAddr snapshotRounds c s) = s := by
  funext x
  unfold backwardTickStateChange tickStateChange
  rw [applyDbOps_eq, applyDbOps_eq]
  have hf : netDiff (tickOps activeDelegates genAddr snapshotRounds { c with backwards := false }) x
      = netDiff (mergeBlockGenerator genAddr { c with backwards := false }) x
        + netDiff (applyRoundOps activeDelegates genAddr c) x := by
    unfold tickOps
    rw [netDiff_append, netDiff_append, netDiff_append,
      applyRoundOps_backwards_irrel, netDiff_aux_zero, netDiff_mark_zero]
    abel
  have hb : netDiff (backwardTickOps activeDelegates genAddr { c with backwards := true }) x
      = netDiff (mergeBlockGenerator genAddr { c with backwards := true }) x
        + netDiff (undoRoundOps activeDelegates genAddr { c with backwards := true }) x := by
    unfold backwardTickOps
    rw [netDiff_append, netDiff_append, netDiff_mark_zero]
    abel
  have hu : netDiff (undoRoundOps activeDelegates genAddr { c with backwards := true }) x
      = -(netDiff (applyRoundOps activeDelegates genAddr c) x) := by
    unfold undoRoundOps
    rw [netDiff_neg_reverse, applyRoundOps_backwards_irrel]
  rw [hf, hb, hu, netDiff_merge_backwards]
  abel

/-- C1.  Round-trip reversal: from any initial delegate-account table,
ticking any sequence of blocks (each with its round context) and then
backward-ticking the same blocks in reverse order restores every
account — balances, vote, votesWeight, producedblocks, missedblocks —
exactly; in particular, rolling back a whole round returns the state
at height `first_in_round(r) - 1`. -/
theorem claim1_roundtrip_reversal (activeDelegates : Nat)
    (genAddr : PubKey → String) (snapshotRounds : Nat)
    (ctxs : List RoundLogicScope) (s : String → MemAccount) :
    (ctxs.reverse).foldl
        (fun st c => backwardTickStateChange activeDelegates genAddr c st)
        (ctxs.foldl
          (fun st c => tickStateChange activeDelegates genAddr snapshotRounds c st) s)
      = s := by
  induction ctxs generalizing s with
  | nil => rfl
  | cons c t ih =>
    rw [List.foldl_cons, List.reverse_cons, List.foldl_append]
    have h1 := ih (tickStateChange activeDelegates genAddr snapshotRounds c s)
    rw [h1, List.foldl_cons, List.foldl_nil]
    exact backward_cancels_tick activeDelegates genAddr snapshotRounds c s

theorem innerTick_flag_and_result {E : Type} (activeDelegates dposv2FirstBlock : Nat)
    (env : InnerTickEnv E) (block : SignedBlock) (backwards : Bool) :
    (innerTick activeDelegates dposv2FirstBlock env block backwards).1 = [true, false]
      ∧ (innerTick activeDelegates dposv2FirstBlock env block backwards).2.2
        = innerTickBody activeDelegates dposv2FirstBlock env block backwards := by
  unfold innerTick innerTickBody
  cases hs : innerTickScope activeDelegates dposv2FirstBlock env block backwards with
  | error e => exact ⟨rfl, rfl⟩
  | ok scope =>
    cases htg : env.txGenerator scope with
    | mk steps r =>
      cases r with
      | error e => simp [htg]
      | ok u =>
        cases ha : env.afterTx with
        | error e => simp [htg, ha]
        | ok v => simp [htg, ha]

/-- C2.  For every call to `tick` or `backwardTick`, the
`rounds.isTicking` flag is written exactly `true` on entry and `false`
on exit — on the success path and in the `catch` handler alike — and
the outcome equals the outcome of the `try` body: any error is
rethrown, never swallowed. -/
theorem claim2_isTicking_flag {E : Type}
    (activeDelegates dposv2FirstBlock snapshotRounds : Nat)
    (envT : TickEnv E) (block : SignedBlock) :
    (roundsTick activeDelegates dposv2FirstBlock snapshotRounds envT block).1 = [true, false]
      ∧ (roundsTick activeDelegates dposv2FirstBlock snapshotRounds envT block).2.2
        = innerTickBody activeDelegates dposv2FirstBlock
            (tickInnerEnv activeDelegates envT snapshotRounds) block false
      ∧ (roundsBackwardTick activeDelegates dposv2FirstBlock envT block).1 = [true, false]
      ∧ (roundsBackwardTick activeDelegates dposv2FirstBlock envT block).2.2
        = innerTickBody activeDelegates dposv2FirstBlock
            (backwardTickInnerEnv activeDelegates envT) block true := by
  have h1 := innerTick_flag_and_result activeDelegates dposv2FirstBlock
    (tickInnerEnv activeDelegates envT snapshotRounds) block false
  have h2 := innerTick_flag_and_result activeDelegates dposv2FirstBlock
    (backwardTickInnerEnv activeDelegates envT) block true
  exact ⟨h1.1, h1.2, h2.1, h2.2⟩

theorem truncate_not_mem_merge (genAddr : PubKey → String) (scope : RoundLogicScope) :
    DBRoundOp.truncateBlocks ∉ mergeBlockGenerator genAddr scope := by
  simp [mergeBlockGenerator]

theorem truncate_not_mem_apply (activeDelegates : Nat) (genAddr : PubKey → String)
    (scope : RoundLogicScope) :
    DBRoundOp.truncateBlocks ∉ applyRoundOps activeDelegates genAddr scope := by
  intro h
  unfold applyRoundOps at h
  cases hrs : scope.roundSums with
  | none => rw [hrs] at h; simp at h
  | some rs =>
    rw [hrs] at h
    by_cases hf : scope.finishRound
    · simp only [hf, if_true, List.mem_append] at h
      rcases h with h | h
      · obtain ⟨i, hi, he⟩ := List.mem_map.mp h
        exact DBRoundOp.noConfusion he
      · obtain ⟨a, ha, he⟩ := List.mem_map.mp h
        exact DBRoundOp.noConfusion he
    · simp [hf] at h

theorem truncate_not_mem_undo (activeDelegates : Nat) (genAddr : PubKey → String)
    (scope : RoundLogicScope) :
    DBRoundOp.truncateBlocks ∉ undoRoundOps activeDelegates genAddr scope := by
  intro h
  unfold undoRoundOps at h
  rw [List.mem_reverse] at h
  obtain ⟨op, hop, he⟩ := List.mem_map.mp h
  cases op with
  | updateAccount a d => exact DBRoundOp.noConfusion he
  | truncateBlocks => exact truncate_not_mem_apply activeDelegates genAddr scope hop
  | markBlockId i => exact DBRoundOp.noConfusion he

/-- C3 (amended).  Within one tick the op list is
`mergeBlockGenerator`, then `apply` (or `undo` in a backward tick),
then — only in a forward tick that finishes a round while snapshot mode
is active and the snapshot round is reached — `truncateBlocks`, and
`markBlockId` last; `truncateBlocks` never occurs in a backward tick. -/
theorem claim3_op_order (activeDelegates : Nat) (genAddr : PubKey → String)
    (snapshotRounds : Nat) (scope : RoundLogicScope) :
    tickOps activeDelegates genAddr snapshotRounds scope
        = mergeBlockGenerator genAddr scope
          ++ applyRoundOps activeDelegates genAddr scope
          ++ (if scope.finishRound
                && ((decide (0 < snapshotRounds)) && (snapshotRounds == scope.round))
              then [DBRoundOp.truncateBlocks] else [])
          ++ [DBRoundOp.markBlockId scope.block.id]
      ∧ backwardTickOps activeDelegates genAddr scope
        = mergeBlockGenerator genAddr scope
          ++ undoRoundOps activeDelegates genAddr scope
          ++ [DBRoundOp.markBlockId scope.block.id]
      ∧ (DBRoundOp.truncateBlocks ∈ tickOps activeDelegates genAddr snapshotRounds scope
          ↔ scope.finishRound = true ∧ 0 < snapshotRounds ∧ snapshotRounds = scope.round)
      ∧ DBRoundOp.truncateBlocks ∉ backwardTickOps activeDelegates genAddr scope := by
  refine ⟨rfl, rfl, ?_, ?_⟩
  · constructor
    · intro h
      unfold tickOps at h
      simp only [List.mem_append] at h
      rcases h with ((h | h) | h) | h
      · exact absurd h (truncate_not_mem_merge genAddr scope)
      · exact absurd h (truncate_not_mem_apply activeDelegates genAddr scope)
      · by_cases hc : scope.finishRound
          && ((decide (0 < snapshotRounds)) && (snapshotRounds == scope.round))
        · simp only [Bool.and_eq_true, decide_eq_true_eq, beq_iff_eq] at hc
          exact ⟨hc.1, hc.2.1, hc.2.2⟩
        · rw [if_neg hc] at h
          simp at h
      · simp at h
    · intro ⟨hf, hp, he⟩
      unfold tickOps
      simp only [List.mem_append]
      left; right
      rw [hf, ← he]
      simp [hp]
  · intro h
    unfold backwardTickOps at h
    simp only [List.mem_append] at h
    rcases h with (h | h) | h
    · exact absurd h (truncate_not_mem_merge genAddr scope)
    · exact absurd h (truncate_not_mem_undo activeDelegates genAddr scope)
    · simp at h

/-- A concrete round-finishing forward-tick scope in snapshot mode
(round 2 with `rounds.snapshot = 2`), used to exhibit the actual op
order. -/
def snapScopeC3 : RoundLogicScope :=
  { backwards := false
    block := { height := 2, generatorPublicKey := [0], id := "b2", totalFee := 0, reward := 0 }
    dposV2 := false
    finishRound := true
    round := 2
    roundOutsiders := some []
    roundSums := some { roundFees := 0, roundRewards := [0], roundDelegates := [[0]] } }

/-- C3 (counterexample).  In a snapshot-round forward tick the
`truncateBlocks` op is present but is **not** the last op of the batch:
`markBlockId` follows it. -/
theorem claim3_counterexample :
    DBRoundOp.truncateBlocks ∈ tickOps 1 (fun _ => "g") 2 snapScopeC3
      ∧ (tickOps 1 (fun _ => "g") 2 snapScopeC3).getLast?
        ≠ some DBRoundOp.truncateBlocks := by
  constructor
  · have h : tickOps 1 (fun _ => "g") 2 snapScopeC3
        = [DBRoundOp.updateAccount "g" { producedblocks := 1 },
           DBRoundOp.updateAccount "g" { balance := 0, u_balance := 0 },
           DBRoundOp.truncateBlocks,
           DBRoundOp.markBlockId "b2"] := by rfl
    rw [h]
    simp
  · intro h
    have hlast : (tickOps 1 (fun _ => "g") 2 snapScopeC3).getLast?
        = some (DBRoundOp.markBlockId "b2") := by rfl
    rw [hlast] at h
    exact DBRoundOp.noConfusion (Option.some.inj h)

theorem hex_filter_pred (rd : List PubKey) (pk : PubKey) :
    (!((rd.map bufToHex).contains (bufToHex pk))) = decide (¬ pk ∈ rd) := by
  by_cases hm : pk ∈ rd
  · have h1 : bufToHex pk ∈ rd.map bufToHex := List.mem_map_of_mem _ hm
    simp [List.contains, h1, hm]
  · have h1 : bufToHex pk ∉ rd.map bufToHex := by
      intro h
      obtain ⟨y, hy, he⟩ := List.mem_map.mp h
      exact hm (bufToHex_injective y pk he ▸ hy)
    simp [List.contains, h1, hm]

/-- C4.  When the expected slate for `last_in_round(round)` is
available, `getOutsiders` returns exactly the slate minus the keys that
actually forged (`roundDelegates`), each mapped to its address; and in
a non-finishing tick the scope's `roundOutsiders` is `null`. -/
theorem claim4_outsiders {E : Type} (activeDelegates dposv2FirstBlock : Nat)
    (env : InnerTickEnv E) (round : Nat) (rd od : List PubKey)
    (block : SignedBlock) (backwards : Bool) (scope : RoundLogicScope) :
    (env.generateDelegateList (lastInRound activeDelegates round) = .ok od →
      getOutsiders activeDelegates env round rd
        = .ok ((od.filter (fun pk => pk ∉ rd)).map env.genAddr))
    ∧ (innerTickFinishRound activeDelegates block.height = false →
        innerTickScope activeDelegates dposv2FirstBlock env block backwards = .ok scope →
        scope.roundOutsiders = none) := by
  constructor
  · intro hgen
    have hz : getOutsiders activeDelegates env round rd
        = match env.generateDelegateList (lastInRound activeDelegates round) with
          | .error e => .error e
          | .ok originalDelegates =>
            .ok ((originalDelegates.filter
              (fun pk => !((rd.map bufToHex).contains (bufToHex pk)))).map env.genAddr) := rfl
    rw [hz, hgen]
    have hred : (match (Except.ok od : Except E (List PubKey)) with
        | .error e => .error e
        | .ok originalDelegates =>
          .ok ((originalDelegates.filter
            (fun pk => !((rd.map bufToHex).contains (bufToHex pk)))).map env.genAddr))
        = Except.ok ((od.filter
            (fun pk => !((rd.map bufToHex).contains (bufToHex pk)))).map env.genAddr) := rfl
    rw [hred]
    congr 1
    congr 1
    apply List.filter_congr
    intro pk _
    exact hex_filter_pred rd pk
  · intro hfin hs
    have h1 : block.height ≠ 1 := by
      intro h1
      rw [innerTickFinishRound, h1] at hfin
      simp at hfin
    unfold innerTickScope at hs
    rw [hfin] at hs
    simp only [Bool.false_eq_true, if_false] at hs
    rw [genesisPatchedSums, if_neg h1] at hs
    simp only [Except.ok.injEq] at hs
    rw [← hs]

/-- Concrete environment for exercising `claim4_outsiders`. -/
def envC4 : InnerTickEnv String :=
  { sumRound := fun _ => .ok { roundFees := 0, roundRewards := [], roundDelegates := [] }
    generateDelegateList := fun _ => .ok [[1]]
    genAddr := fun _ => "a"
    txGenerator := fun _ => ([], .ok ())
    afterTx := .ok () }

/-- A block in the middle of a round (`N = 3`, height 2). -/
def blockC4 : SignedBlock :=
  { height := 2, generatorPublicKey := [7], id := "i4", totalFee := 0, reward := 0 }

/-- The scope the engine builds for `blockC4` (non-finishing). -/
def scopeC4 : RoundLogicScope :=
  { backwards := false
    block := blockC4
    dposV2 := true
    finishRound := false
    round := 1
    roundOutsiders := none
    roundSums := none }

theorem claim4_witness :
    envC4.generateDelegateList (lastInRound 3 1) = .ok [[1]]
      ∧ getOutsiders 3 envC4 1 ([] : List PubKey) = .ok ["a"]
      ∧ innerTickFinishRound 3 2 = false
      ∧ innerTickScope 3 0 envC4 blockC4 false = .ok scopeC4
      ∧ scopeC4.roundOutsiders = none := by
  have h := claim4_outsiders (E := String) 3 0 envC4 1 [] [[1]] blockC4 false scopeC4
  refine ⟨rfl, ?_, rfl, rfl, h.2 rfl rfl⟩
  rw [h.1 rfl]
  rfl

theorem exBind_ok {e : Type} {a b : Type} (m : Except e a) (f : a → Except e b)
    (v : b) (h : m.bind f = .ok v) : ∃ x, m = .ok x ∧ f x = .ok v := by
  cases m with
  | error er => simp [Except.bind] at h
  | ok x => exact ⟨x, rfl, by simpa [Except.bind] using h⟩

theorem exBind_error {e : Type} {a b : Type} (m : Except e a) (f : a → Except e b)
    (er : e) (h : m.bind f = .error er) :
    m = .error er ∨ ∃ x, m = .ok x ∧ f x = .error er := by
  cases m with
  | error e0 => left; simpa [Except.bind] using h
  | ok x => right; exact ⟨x, rfl, by simpa [Except.bind] using h⟩

/-- The first stage of `innerTickScope`: the raw `sumRound` fetch
(`some` when the round finishes, `null` otherwise). -/
def rawRoundSums {E : Type} (activeDelegates : Nat) (env : InnerTickEnv E)
    (h : Nat) : Except (JsError E) (Option RoundSums) :=
  if innerTickFinishRound activeDelegates h then
    match env.sumRound (calcRound activeDelegates h) with
    | .ok rs => .ok (some rs)
    | .error e => .error (.err e)
  else .ok none

/-- The third stage of `innerTickScope`: the outsider fetch. -/
def rawOutsiders {E : Type} (activeDelegates : Nat) (env : InnerTickEnv E)
    (h : Nat) (rSums2 : Option RoundSums) :
    Except (JsError E) (Option (List String)) :=
  if innerTickFinishRound activeDelegates h then
    match rSums2 with
    | none => .error .typeError
    | some rs =>
      match getOutsiders activeDelegates env (calcRound activeDelegates h) rs.roundDelegates with
      | .ok l => .ok (some l)
      | .error e => .error (.err e)
  else .ok none

theorem innerTickScope_decomp {E : Type} (activeDelegates dposv2FirstBlock : Nat)
    (env : InnerTickEnv E) (block : SignedBlock) (backwards : Bool) :
    innerTickScope activeDelegates dposv2FirstBlock env block backwards
      = (rawRoundSums activeDelegates env block.height).bind (fun rSums =>
          (genesisPatchedSums block rSums).bind (fun rSums2 =>
            (rawOutsiders activeDelegates env block.height rSums2).bind (fun routs =>
              .ok { backwards := backwards
                    block := block
                    dposV2 := decide (dposv2FirstBlock ≤ block.height)
                    finishRound := innerTickFinishRound activeDelegates block.height
                    round := calcRound activeDelegates block.height
                    roundOutsiders := routs
                    roundSums := rSums2 }))) := by
  unfold innerTickScope rawRoundSums rawOutsiders
  cases h0 : (if innerTickFinishRound activeDelegates block.height = true then
      match env.sumRound (calcRound activeDelegates block.height) with
      | .ok rs => Except.ok (some rs)
      | .error e => Except.error (JsError.err e)
    else Except.ok (none : Option RoundSums)) with
  | error e => simp [h0, Except.bind]
  | ok rSums =>
    simp only [h0, Except.bind]
    cases h1 : genesisPatchedSums (E := E) block rSums with
    | error e => simp [Except.bind]
    | ok rSums2 =>
      simp only [Except.bind]
      cases h2 : (if innerTickFinishRound activeDelegates block.height = true then
          match rSums2 with
          | none => Except.error JsError.typeError
          | some rs =>
            match getOutsiders activeDelegates env (calcRound activeDelegates block.height)
                rs.roundDelegates with
            | .ok l => Except.ok (some l)
            | .error e => Except.error (JsError.err e)
        else Except.ok (none : Option (List String))) with
      | error e => simp [h2, Except.bind]
      | ok routs => simp [h2, Except.bind]

/-- C5.  Genesis correction: in the (always round-finishing) tick of
height 1 the sums returned by `sumRound` are replaced by
`{ roundFees := 0, roundRewards := [0],
roundDelegates := [block.generatorPublicKey] }` exactly when the
returned delegate list does not have exactly one entry; at height 1
with exactly one delegate, and at every other finishing height, the
sums are used unchanged. -/
theorem claim5_genesis_correction {E : Type} (activeDelegates dposv2FirstBlock : Nat)
    (env : InnerTickEnv E) (block : SignedBlock) (backwards : Bool)
    (rs : RoundSums) (scope : RoundLogicScope)
    (hsum : env.sumRound (calcRound activeDelegates block.height) = .ok rs)
    (hs : innerTickScope activeDelegates dposv2FirstBlock env block backwards = .ok scope) :
    (block.height = 1 → rs.roundDelegates.length ≠ 1 →
        scope.roundSums = some ⟨0, [0], [block.generatorPublicKey]⟩)
      ∧ (block.height = 1 → rs.roundDelegates.length = 1 → scope.roundSums = some rs)
      ∧ (block.height ≠ 1 → innerTickFinishRound activeDelegates block.height = true →
          scope.roundSums = some rs) := by
  rw [innerTickScope_decomp] at hs
  obtain ⟨rSums, h0, hs⟩ := exBind_ok _ _ _ hs
  obtain ⟨rSums2, h1, hs⟩ := exBind_ok _ _ _ hs
  obtain ⟨routs, h2, hs⟩ := exBind_ok _ _ _ hs
  have hsc : scope.roundSums = rSums2 := by
    simp only [Except.ok.injEq] at hs
    rw [← hs]
  refine ⟨?_, ?_, ?_⟩
  · intro hh hlen
    have hf : innerTickFinishRound activeDelegates block.height = true := by
      rw [hh]; simp [innerTickFinishRound]
    rw [rawRoundSums, if_pos hf, hsum] at h0
    simp only [Except.ok.injEq] at h0
    rw [genesisPatchedSums.eq_def, if_pos hh, ← h0] at h1
    simp only [hlen, ne_eq, not_false_eq_true, if_true, ite_true, Except.ok.injEq] at h1
    rw [hsc, ← h1]
  · intro hh hlen
    have hf : innerTickFinishRound activeDelegates block.height = true := by
      rw [hh]; simp [innerTickFinishRound]
    rw [rawRoundSums, if_pos hf, hsum] at h0
    simp only [Except.ok.injEq] at h0
    rw [genesisPatchedSums.eq_def, if_pos hh, ← h0] at h1
    simp only [hlen, ne_eq, not_true_eq_false, if_false, ite_false, Except.ok.injEq] at h1
    rw [hsc, ← h1]
  · intro hh hf
    rw [rawRoundSums, if_pos hf, hsum] at h0
    simp only [Except.ok.injEq] at h0
    rw [genesisPatchedSums.eq_def, if_neg hh, ← h0] at h1
    simp only [Except.ok.injEq] at h1
    rw [hsc, ← h1]

/-- Concrete environment for exercising the genesis correction:
`sumRound` reports two delegates at height 1. -/
def rsC5 : RoundSums := { roundFees := 7, roundRewards := [1, 2], roundDelegates := [[1], [2]] }

def envC5 : InnerTickEnv String :=
  { sumRound := fun _ => .ok rsC5
    generateDelegateList := fun _ => .ok []
    genAddr := fun _ => "x"
    txGenerator := fun _ => ([], .ok ())
    afterTx := .ok () }

def blockC5 : SignedBlock :=
  { height := 1, generatorPublicKey := [9], id := "g", totalFee := 0, reward := 0 }

def scopeC5 : RoundLogicScope :=
  { backwards := false
    block := blockC5
    dposV2 := true
    finishRound := true
    round := 1
    roundOutsiders := some []
    roundSums := some ⟨0, [0], [[9]]⟩ }

theorem claim5_witness :
    envC5.sumRound (calcRound 1 blockC5.height) = .ok rsC5
      ∧ innerTickScope 1 0 envC5 blockC5 false = .ok scopeC5
      ∧ blockC5.height = 1
      ∧ rsC5.roundDelegates.length ≠ 1
      ∧ scopeC5.roundSums = some ⟨0, [0], [blockC5.generatorPublicKey]⟩ := by
  refine ⟨rfl, rfl, rfl, by decide, ?_⟩
  exact (claim5_genesis_correction 1 0 envC5 blockC5 false rsC5 scopeC5 rfl rfl).1
    rfl (by decide)

/-- C6.  Round-end detection: `innerTick` (used by both `tick` and
`backwardTick`) treats a block as round-finishing exactly when
`round_of(height + 1)` differs from `round_of(height)` or the height is
1, i.e. its test agrees with the spec predicate `is_round_end` at every
height, and the scope it builds carries exactly that flag. -/
theorem claim6_round_end {E : Type} (activeDelegates h dposv2FirstBlock : Nat)
    (env : InnerTickEnv E) (block : SignedBlock) (backwards : Bool)
    (scope : RoundLogicScope) :
    innerTickFinishRound activeDelegates h = isRoundEnd activeDelegates h
      ∧ (innerTickScope activeDelegates dposv2FirstBlock env block backwards = .ok scope →
          scope.finishRound = isRoundEnd activeDelegates block.height) := by
  have hbase : ∀ k : Nat,
      innerTickFinishRound activeDelegates k = isRoundEnd activeDelegates k := by
    intro k
    unfold innerTickFinishRound isRoundEnd
    by_cases hc : calcRound activeDelegates (k + 1) = calcRound activeDelegates k
    · rw [hc]
    · have hc2 : calcRound activeDelegates k ≠ calcRound activeDelegates (k + 1) :=
        fun he => hc he.symm
      have h1 : (calcRound activeDelegates (k + 1) != calcRound activeDelegates k) = true := by
        simpa using hc
      have h2 : (calcRound activeDelegates k != calcRound activeDelegates (k + 1)) = true := by
        simpa using hc2
      rw [h1, h2]
  refine ⟨hbase h, ?_⟩
  intro hs
  rw [innerTickScope_decomp] at hs
  obtain ⟨rSums, h0, hs⟩ := exBind_ok _ _ _ hs
  obtain ⟨rSums2, h1, hs⟩ := exBind_ok _ _ _ hs
  obtain ⟨routs, h2, hs⟩ := exBind_ok _ _ _ hs
  simp only [Except.ok.injEq] at hs
  rw [← hs]
  exact hbase block.height

theorem claim6_witness :
    innerTickFinishRound 3 2 = isRoundEnd 3 2
      ∧ innerTickScope 3 0 envC4 blockC4 false = .ok scopeC4
      ∧ scopeC4.finishRound = isRoundEnd 3 blockC4.height := by
  have h := claim6_round_end (E := String) 3 2 0 envC4 blockC4 false scopeC4
  exact ⟨h.1, rfl, h.2 rfl⟩

/-- A persisted round-fee total of `2^53 + 1` satoshi — exceeding the
contiguous integer range of an IEEE-754 double. -/
def resC7 : SumRoundRes := { fees := 2 ^ 53 + 1, rewards := [], delegates := [] }

/-- C7 (counterexample).  `sumRound` pipes the persisted totals through
`parseFloat`/`Math.floor`, so for the fee total `2^53 + 1` the value
the engine hands to the round ops differs from the persisted integer:
no double equals `2^53 + 1`. -/
theorem claim7_counterexample :
    (sumRoundValues resC7).roundFees ≠ ((2 ^ 53 + 1 : Nat) : Int) := by
  intro hEq
  have h1 : (jsParseFloatNat (2 ^ 53 + 1) : Int) = ((2 ^ 53 + 1 : Nat) : Int) := hEq
  have h2 : jsParseFloatNat (2 ^ 53 + 1) = 2 ^ 53 + 1 := by exact_mod_cast h1
  have h3 := jsParseFloatNat_representable (2 ^ 53 + 1)
  rw [h2] at h3
  obtain ⟨m, e, hm, hme⟩ := h3
  cases e with
  | zero =>
    rw [pow_zero, mul_one] at hme
    rw [← hme] at hm
    norm_num at hm
  | succ k =>
    have heven : (m * 2 ^ (k + 1)) % 2 = 0 := by
      rw [pow_succ, ← mul_assoc]
      exact Nat.mul_mod_left _ 2
    rw [← hme] at heven
    have hodd : (2 ^ 53 + 1) % 2 = 1 := by decide
    rw [hodd] at heven
    exact Nat.one_ne_zero heven

/-- C7 (amended).  The engine's `sumRound` values pass through
`parseFloat` (an IEEE-754 double conversion), so they equal the
persisted integer totals exactly whenever every total is below `2^53`;
above that bound the conversion can lose precision. -/
theorem claim7_exact_below_2pow53 (res : SumRoundRes)
    (hf : res.fees < 2 ^ 53) (hr : ∀ r ∈ res.rewards, r < 2 ^ 53) :
    sumRoundValues res
      = { roundFees := Int.ofNat res.fees
          roundRewards := res.rewards.map Int.ofNat
          roundDelegates := res.delegates } := by
  unfold sumRoundValues
  congr 1
  · rw [jsParseFloatNat, if_pos hf]
    rfl
  · apply List.map_congr_left
    intro r hrm
    rw [jsParseFloatNat, if_pos (hr r hrm)]
    rfl

theorem claim7_witness :
    (10000000 : Nat) < 2 ^ 53
      ∧ (∀ r ∈ [(1500000000 : Nat)], r < 2 ^ 53)
      ∧ sumRoundValues { fees := 10000000, rewards := [1500000000], delegates := [] }
        = { roundFees := (10000000 : Int), roundRewards := [(1500000000 : Int)],
            roundDelegates := [] } := by
  have hr : ∀ r ∈ [(1500000000 : Nat)], r < 2 ^ 53 := by
    intro r hrm
    rw [List.mem_singleton] at hrm
    subst hrm
    norm_num
  have h := claim7_exact_below_2pow53 ⟨10000000, [1500000000], []⟩ (by norm_num) hr
  refine ⟨by norm_num, hr, ?_⟩
  rw [h]
  rfl

/-- Concrete tick collaborators whose `finishRound` bus consumer yields
the given outcome; everything else succeeds. -/
def baseEnvC8 (busResult : Except String Unit) : TickEnv String :=
  { sumRound := fun _ => .ok { roundFees := 0, roundRewards := [0], roundDelegates := [[2]] }
    generateDelegateList := fun _ => .ok []
    genAddr := fun _ => "g"
    performOps := fun _ => .ok ()
    busMessage := fun _ => busResult }

def blkC8 : SignedBlock :=
  { height := 2, generatorPublicKey := [2], id := "i8", totalFee := 0, reward := 0 }

/-- C8 (counterexample).  Two identical round-finishing ticks that
differ only in the outcome of the `finishRound` event consumer: when
the consumer rejects, the tick itself fails (the rejection is awaited
and rethrown), and when the consumer resolves, the tick succeeds — so a
consumer failure does affect whether the tick succeeds. -/
theorem claim8_counterexample :
    (roundsTick 1 0 0 (baseEnvC8 (.error "boom")) blkC8).2.2
        = .error (JsError.err "boom")
      ∧ (roundsTick 1 0 0 (baseEnvC8 (.ok ())) blkC8).2.2 = .ok () :=
  ⟨rfl, rfl⟩

/-- C8 (amended).  During `tick` the `finishRound` event is emitted
only after the full op batch has been handed to the transactional
executor and only when that hand-off succeeded in a round-finishing
tick; however the event is awaited, so a failure raised by a consumer
propagates and fails the tick. -/
theorem claim8_event_order {E : Type}
    (activeDelegates dposv2FirstBlock snapshotRounds : Nat)
    (envT : TickEnv E) (block : SignedBlock) (scope : RoundLogicScope) (e : E) :
    ((tickTxGenerator activeDelegates envT snapshotRounds scope).1
          = [TickStep.performOps (tickOps activeDelegates envT.genAddr snapshotRounds scope)]
        ∨ (tickTxGenerator activeDelegates envT snapshotRounds scope).1
          = [TickStep.performOps (tickOps activeDelegates envT.genAddr snapshotRounds scope),
             TickStep.busEmit (.finishRound scope.round)])
      ∧ (∀ ev, TickStep.busEmit ev ∈ (tickTxGenerator activeDelegates envT snapshotRounds scope).1 →
          envT.performOps (tickOps activeDelegates envT.genAddr snapshotRounds scope) = .ok ()
            ∧ ev = .finishRound scope.round ∧ scope.finishRound = true)
      ∧ (envT.performOps (tickOps activeDelegates envT.genAddr snapshotRounds scope) = .ok () →
          scope.finishRound = true →
          envT.busMessage (.finishRound scope.round) = .error e →
          (tickTxGenerator activeDelegates envT snapshotRounds scope).2 = .error e)
      ∧ (innerTickScope activeDelegates dposv2FirstBlock
            (tickInnerEnv activeDelegates envT snapshotRounds) block false = .ok scope →
          (tickTxGenerator activeDelegates envT snapshotRounds scope).2 = .error e →
          (roundsTick activeDelegates dposv2FirstBlock snapshotRounds envT block).2.2
            = .error (.err e)) := by
  refine ⟨?_, ?_, ?_, ?_⟩
  · unfold tickTxGenerator
    cases hp : envT.performOps (tickOps activeDelegates envT.genAddr snapshotRounds scope) with
    | error e0 => left; rfl
    | ok u =>
      by_cases hf : scope.finishRound
      · right; simp [hf]
      · left; simp [hf]
  · intro ev hmem
    unfold tickTxGenerator at hmem
    cases hp : envT.performOps (tickOps activeDelegates envT.genAddr snapshotRounds scope) with
    | error e0 =>
      rw [hp] at hmem
      simp at hmem
    | ok u =>
      rw [hp] at hmem
      by_cases hf : scope.finishRound
      · simp only [hf, if_true] at hmem
        simp at hmem
        cases u
        exact ⟨rfl, hmem, hf⟩
      · simp only [hf] at hmem
        simp at hmem
  · intro hp hf hbus
    unfold tickTxGenerator
    rw [hp, if_pos hf, hbus]
  · intro hs htx
    have hr := innerTick_flag_and_result activeDelegates dposv2FirstBlock
      (tickInnerEnv activeDelegates envT snapshotRounds) block false
    have hb : innerTickBody activeDelegates dposv2FirstBlock
        (tickInnerEnv activeDelegates envT snapshotRounds) block false
        = .error (.err e) := by
      unfold innerTickBody
      rw [hs]
      show (match (tickTxGenerator activeDelegates envT snapshotRounds scope).2 with
          | .error e => (Except.error (JsError.err e) : Except (JsError E) Unit)
          | .ok _ =>
            match (Except.ok () : Except E Unit) with
            | .error e => .error (.err e)
            | .ok _ => .ok ()) = .error (.err e)
      rw [htx]
    exact hr.2.trans hb

/-- The scope the engine builds for `blkC8` (`N = 1`, so every height
finishes its round). -/
def scopeC8 : RoundLogicScope :=
  { backwards := false
    block := blkC8
    dposV2 := true
    finishRound := true
    round := 2
    roundOutsiders := some []
    roundSums := some { roundFees := 0, roundRewards := [0], roundDelegates := [[2]] } }

theorem claim8_witness :
    (baseEnvC8 (.error "boom")).performOps
        (tickOps 1 (baseEnvC8 (.error "boom")).genAddr 0 scopeC8) = .ok ()
      ∧ scopeC8.finishRound = true
      ∧ (baseEnvC8 (.error "boom")).busMessage (.finishRound scopeC8.round) = .error "boom"
      ∧ innerTickScope 1 0 (tickInnerEnv 1 (baseEnvC8 (.error "boom")) 0) blkC8 false
        = .ok scopeC8
      ∧ (tickTxGenerator 1 (baseEnvC8 (.error "boom")) 0 scopeC8).2 = .error "boom"
      ∧ (roundsTick 1 0 0 (baseEnvC8 (.error "boom")) blkC8).2.2
        = .error (JsError.err "boom") := by
  have h := claim8_event_order 1 0 0 (baseEnvC8 (.error "boom")) blkC8 scopeC8 "boom"
  exact ⟨rfl, rfl, rfl, rfl, h.2.2.1 rfl rfl rfl,
    h.2.2.2 rfl (h.2.2.1 rfl rfl rfl)⟩

/-- Whether an engine outcome is a JavaScript `TypeError` (a `null`
dereference). -/
def isTypeErrorResult {E a : Type} : Except (JsError E) a → Bool
  | .error .typeError => true
  | .error (.err _) => false
  | .ok _ => false

theorem innerTickScope_no_typeError {E : Type} (activeDelegates dposv2FirstBlock : Nat)
    (env : InnerTickEnv E) (block : SignedBlock) (backwards : Bool) :
    innerTickScope activeDelegates dposv2FirstBlock env block backwards
      ≠ .error JsError.typeError := by
  intro hcontra
  rw [innerTickScope_decomp] at hcontra
  rcases exBind_error _ _ _ hcontra with h0 | ⟨rSums, h0, hrest⟩
  · unfold rawRoundSums at h0
    by_cases hf : innerTickFinishRound activeDelegates block.height = true
    · rw [if_pos hf] at h0
      cases hsr : env.sumRound (calcRound activeDelegates block.height) with
      | ok rs => rw [hsr] at h0; simp at h0
      | error e => rw [hsr] at h0; simp at h0
    · rw [if_neg hf] at h0; simp at h0
  · rcases exBind_error _ _ _ hrest with h1 | ⟨rSums2, h1, hrest2⟩
    · rw [genesisPatchedSums.eq_def] at h1
      by_cases h1h : block.height = 1
      · rw [if_pos h1h] at h1
        cases rSums with
        | some rs => simp at h1
        | none =>
          unfold rawRoundSums at h0
          have hf : innerTickFinishRound activeDelegates block.height = true := by
            rw [h1h]; simp [innerTickFinishRound]
          rw [if_pos hf] at h0
          cases hsr : env.sumRound (calcRound activeDelegates block.height) with
          | ok rs => rw [hsr] at h0; simp at h0
          | error e => rw [hsr] at h0; simp at h0
      · rw [if_neg h1h] at h1; simp at h1
    · rcases exBind_error _ _ _ hrest2 with h2 | ⟨routs, h2, hrest3⟩
      · unfold rawOutsiders at h2
        by_cases hf : innerTickFinishRound activeDelegates block.height = true
        · rw [if_pos hf] at h2
          cases rSums2 with
          | some rs =>
            have h2x : (match getOutsiders activeDelegates env
                  (calcRound activeDelegates block.height) rs.roundDelegates with
                | .ok l => (Except.ok (some l) : Except (JsError E) (Option (List String)))
                | .error e => Except.error (JsError.err e))
                = Except.error JsError.typeError := h2
            cases hgo : getOutsiders activeDelegates env
                (calcRound activeDelegates block.height) rs.roundDelegates with
            | ok l => rw [hgo] at h2x; simp at h2x
            | error e => rw [hgo] at h2x; simp at h2x
          | none =>
            rw [genesisPatchedSums.eq_def] at h1
            by_cases h1h : block.height = 1
            · rw [if_pos h1h] at h1
              cases rSums with
              | none => simp at h1
              | some rs => simp at h1
            · rw [if_neg h1h] at h1
              simp only [Except.ok.injEq] at h1
              subst h1
              unfold rawRoundSums at h0
              rw [if_pos hf] at h0
              cases hsr : env.sumRound (calcRound activeDelegates block.height) with
              | ok rs => rw [hsr] at h0; simp at h0
              | error e => rw [hsr] at h0; simp at h0
        · rw [if_neg hf] at h2; simp at h2
      · simp [Except.bind] at hrest3

/-- C9.  Null-safety of the genesis branch: for every input the engine
never raises a `TypeError` — in particular the height-1 read of
`roundSums.roundDelegates` is safe, because `block.height == 1` forces
`finishRound`, so `roundSums` was produced by `sumRound` rather than
left `null` (and the later `roundSums.roundDelegates` read at line 141
is equally guarded). -/
theorem claim9_no_null_deref {E : Type} (activeDelegates dposv2FirstBlock : Nat)
    (env : InnerTickEnv E) (block : SignedBlock) (backwards : Bool) :
    isTypeErrorResult (innerTickScope activeDelegates dposv2FirstBlock env block backwards)
        = false
      ∧ isTypeErrorResult
          (innerTick activeDelegates dposv2FirstBlock env block backwards).2.2 = false := by
  have key := innerTickScope_no_typeError activeDelegates dposv2FirstBlock env block backwards
  constructor
  · cases hres : innerTickScope activeDelegates dposv2FirstBlock env block backwards with
    | ok s => simp [isTypeErrorResult]
    | error e =>
      cases e with
      | typeError => exact absurd hres key
      | err e0 => simp [isTypeErrorResult]
  · unfold innerTick
    cases hres : innerTickScope activeDelegates dposv2FirstBlock env block backwards with
    | error e =>
      cases e with
      | typeError => exact absurd hres key
      | err e0 => simp [isTypeErrorResult]
    | ok scope =>
      cases htg : env.txGenerator scope with
      | mk steps r =>
        cases r with
        | error e => simp [htg, isTypeErrorResult]
        | ok u =>
          cases ha : env.afterTx with
          | error e => simp [htg, ha, isTypeErrorResult]
          | ok v => simp [htg, ha, isTypeErrorResult]

/-- C10.  Each of `setAccountAndGet`, `mergeAccountAndGetSQL` and
`mergeAccountAndGet` throws `'Missing address and public key'` exactly
when the argument supplies neither an address nor a public key (both
falsy); and when the address is absent but a public key is present, the
address is derived with `generateAddressByPublicKey` and the operation
proceeds on that derived address. -/
theorem claim10_accounts_guard (gen : String → String) (d : AccountIdentArg) :
    (setAccountAndGet gen d = .error "Missing address and public key"
        ↔ jsFalsyStr d.address = true ∧ jsFalsyStr d.publicKey = true)
      ∧ (jsFalsyStr d.address = true → jsFalsyStr d.publicKey = false →
          setAccountAndGet gen d = .ok (gen (d.publicKey.getD "")))
      ∧ (mergeAccountAndGetSQL gen d = .error "Missing address and public key"
          ↔ jsFalsyStr d.address = true ∧ jsFalsyStr d.publicKey = true)
      ∧ (jsFalsyStr d.address = true → jsFalsyStr d.publicKey = false →
          mergeAccountAndGetSQL gen d = .ok (gen (d.publicKey.getD "")))
      ∧ (mergeAccountAndGet gen d = .error "Missing address and public key"
          ↔ jsFalsyStr d.address = true ∧ jsFalsyStr d.publicKey = true)
      ∧ (jsFalsyStr d.address = true → jsFalsyStr d.publicKey = false →
          mergeAccountAndGet gen d = .ok (gen (d.publicKey.getD ""))) := by
  refine ⟨?_, ?_, ?_, ?_, ?_, ?_⟩
  · constructor
    · intro h
      by_cases ha : jsFalsyStr d.address = true
      · by_cases hp : jsFalsyStr d.publicKey = true
        · exact ⟨ha, hp⟩
        · unfold setAccountAndGet at h
          simp [ha, hp] at h
      · unfold setAccountAndGet at h
        simp [ha] at h
    · intro hb
      unfold setAccountAndGet
      simp [hb.1, hb.2]
  · intro ha hp
    unfold setAccountAndGet
    simp [ha, hp]
  · constructor
    · intro h
      by_cases ha : jsFalsyStr d.address = true
      · by_cases hp : jsFalsyStr d.publicKey = true
        · exact ⟨ha, hp⟩
        · unfold mergeAccountAndGetSQL at h
          simp [ha, hp] at h
      · unfold mergeAccountAndGetSQL at h
        simp [ha] at h
    · intro hb
      unfold mergeAccountAndGetSQL
      simp [hb.1, hb.2]
  · intro ha hp
    unfold mergeAccountAndGetSQL
    simp [ha, hp]
  · constructor
    · intro h
      by_cases ha : jsFalsyStr d.address = true
      · by_cases hp : jsFalsyStr d.publicKey = true
        · exact ⟨ha, hp⟩
        · unfold mergeAccountAndGet at h
          simp [ha, hp] at h
      · unfold mergeAccountAndGet at h
        simp [ha] at h
    · intro hb
      unfold mergeAccountAndGet
      simp [hb.1, hb.2]
  · intro ha hp
    unfold mergeAccountAndGet
    simp [ha, hp]

def genC10 : String → String := fun s => String.append s "R"

def dC10 : AccountIdentArg := { address := none, publicKey := some "ab" }

theorem claim10_witness :
    jsFalsyStr dC10.address = true
      ∧ jsFalsyStr dC10.publicKey = false
      ∧ setAccountAndGet genC10 dC10 = .ok "abR"
      ∧ mergeAccountAndGetSQL genC10 dC10 = .ok "abR"
      ∧ mergeAccountAndGet genC10 dC10 = .ok "abR" := by
  have h := claim10_accounts_guard genC10 dC10
  refine ⟨rfl, rfl, ?_, ?_, ?_⟩
  · rw [h.2.1 rfl rfl]
    rfl
  · rw [h.2.2.2.1 rfl rfl]
    rfl
  · rw [h.2.2.2.2.2 rfl rfl]
    rfl
